import Mathlib

/-!
Verification development for the Censai repository: a shallow embedding of
the recurrent-block wiring (`ConvGRUBlock`, `ConvGRUPlusBlock`), the
convolutional encoding stage (`ConvEncodingLayer`, `DownsamplingLayer`)
and the training-script loss / weighting / epoch-loop logic of
`train_rim.py`, together with theorems settling the specification claims.

Tensors are modelled as a spatial shape together with the list of their
channel slabs: the recurrent-block claims only concern operations along
the channel axis (`tf.split` with two parts on axis 3, `tf.concat` on
axis 3), so the content of one channel slab is kept as an abstract type.
The learned layer functions (GRU cells, convolutions, normalization,
dropout) are parameters of the embedding; the wiring and the constructor
configuration are translated from the source.
-/

namespace Censai

/-- A 4-D `channels_last` tensor viewed along its channel axis: spatial
shape plus the list of channel slabs (one `α` per channel). -/
structure Tensor (α : Type) where
  height : Nat
  width : Nat
  channels : List α
deriving DecidableEq, Repr

/-- Embedding of `tf.split(state, 2, axis=3)`: splits the channel axis into two equal
halves; TensorFlow raises when the channel count is not divisible by 2,
modelled as `none`. -/
def tfSplit2 {α : Type} (t : Tensor α) : Option (Tensor α × Tensor α) :=
  if t.channels.length % 2 = 0 then
    some (⟨t.height, t.width, t.channels.take (t.channels.length / 2)⟩,
          ⟨t.height, t.width, t.channels.drop (t.channels.length / 2)⟩)
  else
    none

/-- Embedding of `tf.concat([a, b], axis=3)`: concatenation along the channel axis. -/
def tfConcat {α : Type} (a b : Tensor α) : Tensor α :=
  ⟨a.height, a.width, a.channels ++ b.channels⟩

/-- A Keras kernel-size / strides argument: a plain int or a pair. -/
inductive KSize where
  | int (n : Nat)
  | pair (a b : Nat)
deriving DecidableEq, Repr

/-- Normalization `(x,)*2 if isinstance(x, int) else x`: the int-to-pair normalization
the constructors perform. -/
def KSize.toPair : KSize → KSize
  | KSize.int n => KSize.pair n n
  | KSize.pair a b => KSize.pair a b

/-- Activation argument of a Keras `Conv2D` layer. -/
inductive ConvActivation where
  | linear
  | tanh
deriving DecidableEq, Repr

/-- Padding argument of a Keras `Conv2D` layer. -/
inductive ConvPadding where
  | same
  | valid
deriving DecidableEq, Repr

/-- The static configuration of a `tf.keras.layers.Conv2D` layer: the
arguments the constructors of this repository pass to it. -/
structure Conv2DConfig where
  filters : Nat
  kernel_size : KSize
  strides : KSize
  activation : ConvActivation
  padding : ConvPadding
deriving DecidableEq, Repr

/-- Embedding of `ConvGRUBlock` (conv_gru_component.py): the intermediate convolution's
configuration and function, and the two GRU cells.  The cells'
computations live in `conv_gru.py`, outside the sources at hand, so they
are abstract functions returning the pair the cell's `call` returns. -/
structure ConvGRUBlock (α : Type) where
  conv1_config : Conv2DConfig
  conv1 : Tensor α → Tensor α
  gru1 : Tensor α → Tensor α → Tensor α × Tensor α
  gru2 : Tensor α → Tensor α → Tensor α × Tensor α

namespace ConvGRUBlock

/-- Embedding of `ConvGRUBlock.__init__`: builds `conv1` as a tanh-activated, same-padded
`Conv2D` (strides left at the Keras default `(1, 1)`) and the two
`ConvGRU` cells.  `kernel_size` is duplicated into a pair when an int. -/
def init {α : Type} (filters : Nat) (kernel_size : KSize)
    (conv1 : Tensor α → Tensor α)
    (gru1 gru2 : Tensor α → Tensor α → Tensor α × Tensor α) :
    ConvGRUBlock α :=
  { conv1_config :=
      { filters := filters
        kernel_size := kernel_size.toPair
        strides := KSize.pair 1 1
        activation := ConvActivation.tanh
        padding := ConvPadding.same }
    conv1 := conv1
    gru1 := gru1
    gru2 := gru2 }

/-- Embedding of `ConvGRUBlock.call`: split the state in two halves along the channel
axis, run the first GRU on `(inputs, ht_11)`, pass its output through
`conv1`, run the second GRU on `(gru_1_outE, ht_12)`, and return
`(gru_2_out, concat [gru_1_out, gru_2_out])`. -/
def call {α : Type} (blk : ConvGRUBlock α) (inputs state : Tensor α) :
    Option (Tensor α × Tensor α) :=
  match tfSplit2 state with
  | none => none
  | some (ht_11, ht_12) =>
    let gru_1_out := (blk.gru1 inputs ht_11).1
    let gru_1_outE := blk.conv1 gru_1_out
    let gru_2_out := (blk.gru2 gru_1_outE ht_12).1
    let ht := tfConcat gru_1_out gru_2_out
    let xt := gru_2_out
    some (xt, ht)

end ConvGRUBlock

/-- Embedding of `ConvGRUPlusBlock` (conv_gru_plus_component.py): same shape of record,
its cells are `ConvGRUPlus` instances. -/
structure ConvGRUPlusBlock (α : Type) where
  conv1_config : Conv2DConfig
  conv1 : Tensor α → Tensor α
  gru1 : Tensor α → Tensor α → Tensor α × Tensor α
  gru2 : Tensor α → Tensor α → Tensor α × Tensor α

namespace ConvGRUPlusBlock

/-- Embedding of `ConvGRUPlusBlock.__init__`: identical configuration except that
`strides=1` is passed explicitly (Keras normalizes it to `(1, 1)`). -/
def init {α : Type} (filters : Nat) (kernel_size : KSize)
    (conv1 : Tensor α → Tensor α)
    (gru1 gru2 : Tensor α → Tensor α → Tensor α × Tensor α) :
    ConvGRUPlusBlock α :=
  { conv1_config :=
      { filters := filters
        kernel_size := kernel_size.toPair
        strides := KSize.pair 1 1
        activation := ConvActivation.tanh
        padding := ConvPadding.same }
    conv1 := conv1
    gru1 := gru1
    gru2 := gru2 }

/-- Embedding of `ConvGRUPlusBlock.call`, translated from conv_gru_plus_component.py
lines 27-34 (textually the same wiring as `ConvGRUBlock.call`). -/
def call {α : Type} (blk : ConvGRUPlusBlock α) (inputs state : Tensor α) :
    Option (Tensor α × Tensor α) :=
  match tfSplit2 state with
  | none => none
  | some (ht_11, ht_12) =>
    let gru_1_out := (blk.gru1 inputs ht_11).1
    let gru_1_outE := blk.conv1 gru_1_out
    let gru_2_out := (blk.gru2 gru_1_outE ht_12).1
    let ht := tfConcat gru_1_out gru_2_out
    let xt := gru_2_out
    some (xt, ht)

end ConvGRUPlusBlock

/-! ## Conv encoding stage (conv_encoding_layer.py)

Layer objects are modelled by the function they compute on a tensor type
`T`, taking the Keras `training` flag; the nonlinearity produced by
`get_activation` is a plain tensor function (the spec's "configurable
nonlinearity", a stateless pointwise map).  The identity
`Lambda(lambda x, training=True: x)` placeholder becomes `fun x _ => x`. -/

/-- Embedding of `DownsamplingLayer`: a strided same-padded convolution (whose static
configuration is recorded), its optional normalization, and the shared
activation. -/
structure DownsamplingLayer (T : Type) where
  conv_config : Conv2DConfig
  conv : T → Bool → T
  batch_norm : T → Bool → T
  activation : T → T

namespace DownsamplingLayer

/-- Embedding of `DownsamplingLayer.__init__`: records the `Conv2D` configuration
(`padding="SAME"`, no activation argument, hence linear) and installs
either a `BatchNormalization` (abstract `bn`) or the identity lambda. -/
def init {T : Type} (filters : Nat) (kernel_size : KSize) (activation : T → T)
    (strides : KSize) (batch_norm : Bool)
    (conv : T → Bool → T) (bn : T → Bool → T) : DownsamplingLayer T :=
  { conv_config :=
      { filters := filters
        kernel_size := kernel_size
        strides := strides
        activation := ConvActivation.linear
        padding := ConvPadding.same }
    conv := conv
    batch_norm := if batch_norm then bn else fun x _ => x
    activation := activation }

/-- Embedding of `DownsamplingLayer.call`: convolution, then normalization, then
activation. -/
def call {T : Type} (l : DownsamplingLayer T) (x : T) (training : Bool) : T :=
  l.activation (l.batch_norm (l.conv x training) training)

end DownsamplingLayer

/-- Embedding of `ConvEncodingLayer`: the configuration fields the constructor stores,
the list of convolution layers paired with their normalizations, the
dropout layer and the downsampling layer. -/
structure ConvEncodingLayer (T : Type) where
  downsampling_kernel_size : KSize
  downsampling_filters : Nat
  kernel_size : KSize
  num_conv_layers : Nat
  filters : Nat
  strides : KSize
  activation : T → T
  conv_layers : List (T → Bool → T)
  batch_norms : List (T → Bool → T)
  downsampling_layer : DownsamplingLayer T
  dropout : T → Bool → T

namespace ConvEncodingLayer

/-- Embedding of `ConvEncodingLayer.__init__`.  `kernel_size` and `strides` may be ints
or pairs and are duplicated into pairs where the source does so;
`downsampling_kernel_size` is the raw `kernel_size` when `None` and the
pair `(v, v)` when the int `v`; `downsampling_filters` defaults to the
layer's own `filters` when `None`.  The learned convolution of layer `i`
is the abstract `convFn i`, its normalization `bnFn i` when `batch_norm`
is on and the identity lambda otherwise; dropout is `dropFn` when a rate
is given and the identity lambda otherwise. -/
def init {T : Type} (kernel_size : KSize) (downsampling_kernel_size : Option Nat)
    (downsampling_filters : Option Nat) (filters : Nat) (conv_layers : Nat)
    (activation : T → T) (batch_norm : Bool) (dropout_rate : Option ℚ)
    (strides : KSize)
    (convFn : Nat → T → Bool → T) (bnFn : Nat → T → Bool → T)
    (dsConv : T → Bool → T) (dsBn : T → Bool → T)
    (dropFn : T → Bool → T) : ConvEncodingLayer T :=
  let dks : KSize :=
    match downsampling_kernel_size with
    | none => kernel_size
    | some v => KSize.pair v v
  let dfs : Nat :=
    match downsampling_filters with
    | none => filters
    | some v => v
  { downsampling_kernel_size := dks
    downsampling_filters := dfs
    kernel_size := kernel_size.toPair
    num_conv_layers := conv_layers
    filters := filters
    strides := strides.toPair
    activation := activation
    conv_layers := (List.range conv_layers).map convFn
    batch_norms := (List.range conv_layers).map
      (fun i => if batch_norm then bnFn i else fun x _ => x)
    downsampling_layer :=
      DownsamplingLayer.init dfs dks activation strides.toPair
        batch_norm dsConv dsBn
    dropout :=
      match dropout_rate with
      | none => fun x _ => x
      | some _ => dropFn }

/-- The loop body of `ConvEncodingLayer.call`: each convolution layer with
its matching normalization (`batch_norms[i]`), then activation, then
dropout, threaded in order. -/
def convStack {T : Type} (activation : T → T) (dropout : T → Bool → T)
    (training : Bool) :
    List ((T → Bool → T) × (T → Bool → T)) → T → T
  | [], x => x
  | (conv, bn) :: rest, x =>
    convStack activation dropout training rest
      (dropout (activation (bn (conv x training) training)) training)

/-- Embedding of `ConvEncodingLayer.call`: the convolution stack followed by the
downsampling layer. -/
def call {T : Type} (l : ConvEncodingLayer T) (x : T) (training : Bool) : T :=
  l.downsampling_layer.call
    (convStack l.activation l.dropout training (l.conv_layers.zip l.batch_norms) x)
    training

/-- The loop body of `ConvEncodingLayer.call_with_skip_connection`
(textually the same loop; the activation, a stateless pointwise map,
is called without the `training` keyword there). -/
def convStackSkip {T : Type} (activation : T → T) (dropout : T → Bool → T)
    (training : Bool) :
    List ((T → Bool → T) × (T → Bool → T)) → T → T
  | [], x => x
  | (conv, bn) :: rest, x =>
    convStackSkip activation dropout training rest
      (dropout (activation (bn (conv x training) training)) training)

/-- Embedding of `ConvEncodingLayer.call_with_skip_connection`: returns the features
before downsampling together with their downsampled transform. -/
def call_with_skip_connection {T : Type} (l : ConvEncodingLayer T) (x : T)
    (training : Bool) : T × T :=
  let y := convStackSkip l.activation l.dropout training
    (l.conv_layers.zip l.batch_norms) x
  (y, l.downsampling_layer.call y training)

end ConvEncodingLayer

/-! ### The encoding stage as the specification words it

A second definition, written from the spec's sentence (§4.3) rather than
from the source, for comparison with `ConvEncodingLayer.call`: `N`
convolution layers each followed by optional normalization, the
nonlinearity, and optional dropout; then a downsampling convolution with
its own optional normalization and the same nonlinearity. -/

/-- One spec-side encoder layer: convolution, normalization when enabled,
nonlinearity, dropout when enabled, in that order. -/
def specLayerStep {T : Type} (conv bn : T → Bool → T) (act : T → T)
    (drop : T → Bool → T) (useBN useDrop : Bool) (training : Bool)
    (x : T) : T :=
  let x1 := conv x training
  let x2 := if useBN then bn x1 training else x1
  let x3 := act x2
  if useDrop then drop x3 training else x3

/-- The spec-side encoder forward pass: the `N` layers in order, then the
downsampling convolution, its optional normalization, and the
nonlinearity. -/
def specEncodingForward {T : Type} (convFn bnFn : Nat → T → Bool → T)
    (dsConv dsBn : T → Bool → T) (act : T → T) (drop : T → Bool → T)
    (N : Nat) (useBN useDrop : Bool) (training : Bool) (x : T) : T :=
  let y := (List.range N).foldl
    (fun acc i => specLayerStep (convFn i) (bnFn i) act drop useBN useDrop
      training acc) x
  let z := dsConv y training
  let z2 := if useBN then dsBn z training else z
  act z2

/-! ## Training script (train_rim.py)

Arithmetic in the script runs in float32; the embedding uses exact
rationals, so the weight-normalization identities hold exactly.  A tensor
of shape `[steps, batch, h, w, c]` is a function over `Fin` indices. -/

namespace TrainRim

/-- Embedding of `tf.ones(shape=(steps)) / steps`. -/
def uniform_time_weights (steps : Nat) : List ℚ :=
  List.replicate steps (1 / (steps : ℚ))

/-- Embedding of `2 * (tf.range(steps) + 1) / steps / (steps + 1)`. -/
def linear_time_weights (steps : Nat) : List ℚ :=
  (List.range steps).map
    (fun (t : Nat) => 2 * ((t : ℚ) + 1) / (steps : ℚ) / ((steps : ℚ) + 1))

/-- Embedding of `6 * (tf.range(steps) + 1)**2 / steps / (steps + 1) / (2 * steps + 1)`. -/
def quadratic_time_weights (steps : Nat) : List ℚ :=
  (List.range steps).map
    (fun (t : Nat) => 6 * ((t : ℚ) + 1) ^ 2 / (steps : ℚ) / ((steps : ℚ) + 1)
      / (2 * (steps : ℚ) + 1))

/-- Selection of the per-step loss weights `wt` (train_rim.py lines
183-191): an unrecognized `time_weights` name raises a `ValueError`. -/
def select_time_weights (time_weights : String) (steps : Nat) :
    Except String (List ℚ) :=
  if time_weights = "uniform" then
    Except.ok (uniform_time_weights steps)
  else if time_weights = "linear" then
    Except.ok (linear_time_weights steps)
  else if time_weights = "quadratic" then
    Except.ok (quadratic_time_weights steps)
  else
    Except.error "time_weights must be in ['uniform', 'linear', 'quadratic']"

/-- The four per-pixel residual-weighting lambdas of train_rim.py. -/
inductive PixelScheme where
  | uniform
  | linear
  | quadratic
  | sq_root
deriving DecidableEq, Repr

/-- Selection of `wk` (train_rim.py lines 194-203), in the source's branch
order `uniform`, `linear`, `sqrt`, `quadratic`. -/
def select_kappa_residual_weights (name : String) :
    Except String PixelScheme :=
  if name = "uniform" then Except.ok PixelScheme.uniform
  else if name = "linear" then Except.ok PixelScheme.linear
  else if name = "sqrt" then Except.ok PixelScheme.sq_root
  else if name = "quadratic" then Except.ok PixelScheme.quadratic
  else
    Except.error
      "kappa_residual_weights must be in ['uniform', 'linear', 'quadratic', 'sqrt']"

/-- Selection of `ws` (train_rim.py lines 205-214), branch order
`uniform`, `linear`, `quadratic`, `sqrt`. -/
def select_source_residual_weights (name : String) :
    Except String PixelScheme :=
  if name = "uniform" then Except.ok PixelScheme.uniform
  else if name = "linear" then Except.ok PixelScheme.linear
  else if name = "quadratic" then Except.ok PixelScheme.quadratic
  else if name = "sqrt" then Except.ok PixelScheme.sq_root
  else
    Except.error
      "kappa_residual_weights must be in ['uniform', 'linear', 'quadratic', 'sqrt']"

/-- The weights a scheme produces on one sample, whose pixels (the
`h × w × c` axes the lambdas sum over with `axis=(1, 2, 3)`) are
flattened into a list.  `sqrtFn` interprets `tf.sqrt`, which has no exact
rational counterpart; the other schemes are exact. -/
def PixelScheme.apply (sqrtFn : ℚ → ℚ) : PixelScheme → List ℚ → List ℚ
  | PixelScheme.uniform, k => k.map (fun _ => 1 / (k.length : ℚ))
  | PixelScheme.linear, k => k.map (fun x => x / k.sum)
  | PixelScheme.quadratic, k =>
      k.map (fun x => x ^ 2 / (k.map (fun y => y ^ 2)).sum)
  | PixelScheme.sq_root, k =>
      k.map (fun x => sqrtFn x / (k.map sqrtFn).sum)

/-- The weight-selection prologue of `main` (train_rim.py lines 183-214):
all three selections happen during setup, before `train_step` is defined
or any batch is consumed; the first failure aborts setup. -/
def setupWeights (time_weights kappa_residual_weights source_residual_weights :
    String) (steps : Nat) : Except String (List ℚ × PixelScheme × PixelScheme) := do
  let wt ← select_time_weights time_weights steps
  let wk ← select_kappa_residual_weights kappa_residual_weights
  let ws ← select_source_residual_weights source_residual_weights
  return (wt, wk, ws)

/-- A `[batch, h, w, c]` tensor of rationals. -/
def BTensor (B H W C : Nat) : Type :=
  Fin B → Fin H → Fin W → Fin C → ℚ

/-- Embedding of `tf.reduce_sum(v, axis=(2, 3, 4))` applied at fixed step and batch
indices: the sum over the three pixel axes. -/
def sumPix {H W C : Nat} (f : Fin H → Fin W → Fin C → ℚ) : ℚ :=
  ∑ i : Fin H, ∑ j : Fin W, ∑ c : Fin C, f i j c

/-- Embedding of `source_cost1` / `kappa_cost1` of `train_step` (train_rim.py lines
280-281): per-pixel weights times squared residual against the
inverse-linked ground truth, summed over the pixel axes; shape
`[steps, batch]`.  `w` is `ws(source)` (resp. `wk(kappa)`) and `target`
is `rim.source_inverse_link(source)` (resp. `rim.kappa_inverse_link(kappa)`). -/
def cost1 {T B H W C : Nat} (w : BTensor B H W C)
    (series : Fin T → BTensor B H W C) (target : BTensor B H W C)
    (t : Fin T) (b : Fin B) : ℚ :=
  sumPix (fun i j c => w b i j c * (series t b i j c - target b i j c) ^ 2)

/-- The scalar `cost` of `train_step` (train_rim.py lines 280-286): the
per-field `[steps, batch]` costs are weighted by `wt` and summed over the
step axis, the two fields are added, summed over the batch and divided by
`args.batch_size`.  The weight tensors are the residual-weighting lambdas
applied to the ground truths, kept abstract as functions `ws`, `wk`; the
inverse links of the RIM are abstract likewise. -/
def train_step_cost {T B Hs Ws Cs Hk Wk Ck : Nat} (batch_size : ℚ)
    (ws : BTensor B Hs Ws Cs → BTensor B Hs Ws Cs)
    (wk : BTensor B Hk Wk Ck → BTensor B Hk Wk Ck)
    (source_inverse_link : BTensor B Hs Ws Cs → BTensor B Hs Ws Cs)
    (kappa_inverse_link : BTensor B Hk Wk Ck → BTensor B Hk Wk Ck)
    (source_series : Fin T → BTensor B Hs Ws Cs)
    (kappa_series : Fin T → BTensor B Hk Wk Ck)
    (source : BTensor B Hs Ws Cs) (kappa : BTensor B Hk Wk Ck)
    (wt : Fin T → ℚ) : ℚ :=
  let source_cost1 := cost1 (ws source) source_series (source_inverse_link source)
  let kappa_cost1 := cost1 (wk kappa) kappa_series (kappa_inverse_link kappa)
  let source_cost : Fin B → ℚ := fun b => ∑ t : Fin T, wt t * source_cost1 t b
  let kappa_cost : Fin B → ℚ := fun b => ∑ t : Fin T, wt t * kappa_cost1 t b
  (∑ b : Fin B, (kappa_cost b + source_cost b)) / batch_size

/-- The loss as the specification words it: for each field, per-pixel
weights times squared residual summed over pixels, weighted by the
per-step weights and summed over steps, then summed over fields and the
batch, and divided by the batch size. -/
def spec_doubly_weighted_loss {T B Hs Ws Cs Hk Wk Ck : Nat} (batch_size : ℚ)
    (ws : BTensor B Hs Ws Cs → BTensor B Hs Ws Cs)
    (wk : BTensor B Hk Wk Ck → BTensor B Hk Wk Ck)
    (source_inverse_link : BTensor B Hs Ws Cs → BTensor B Hs Ws Cs)
    (kappa_inverse_link : BTensor B Hk Wk Ck → BTensor B Hk Wk Ck)
    (source_series : Fin T → BTensor B Hs Ws Cs)
    (kappa_series : Fin T → BTensor B Hk Wk Ck)
    (source : BTensor B Hs Ws Cs) (kappa : BTensor B Hk Wk Ck)
    (wt : Fin T → ℚ) : ℚ :=
  ((∑ b : Fin B, ∑ t : Fin T, wt t *
      sumPix (fun i j c => ws source b i j c *
        (source_series t b i j c - source_inverse_link source b i j c) ^ 2)) +
   (∑ b : Fin B, ∑ t : Fin T, wt t *
      sumPix (fun i j c => wk kappa b i j c *
        (kappa_series t b i j c - kappa_inverse_link kappa b i j c) ^ 2))) /
  batch_size

end TrainRim

/-! ### Epoch loop (train_rim.py lines 356-496)

The tracked scalar cost is a float: NaN and the infinities must be
distinguishable, since the loop tests `np.isnan(cost)` only.  `FVal`
models the float values the loop inspects; training itself, wall-clock
time and the learning-rate schedule are abstracted into per-epoch
streams. -/

/-- A float value as the epoch loop observes it. -/
inductive FVal where
  | fin (q : ℚ)
  | pinf
  | ninf
  | nan
deriving DecidableEq, Repr

namespace FVal

/-- Embedding of `np.isnan`. -/
def isnan : FVal → Bool
  | nan => true
  | _ => false

/-- Embedding of `np.isfinite`. -/
def isFinite : FVal → Bool
  | fin _ => true
  | _ => false

/-- IEEE `<`: comparisons involving NaN are false. -/
def flt : FVal → FVal → Bool
  | fin a, fin b => decide (a < b)
  | fin _, pinf => true
  | ninf, fin _ => true
  | ninf, pinf => true
  | _, _ => false

/-- IEEE multiplication, restricted to the values the loop builds
(`(1 - tolerance) * best_loss` with a finite first factor). -/
def fmul : FVal → FVal → FVal
  | fin a, fin b => fin (a * b)
  | fin a, pinf => if a > 0 then pinf else if a < 0 then ninf else nan
  | fin a, ninf => if a > 0 then ninf else if a < 0 then pinf else nan
  | pinf, fin b => if b > 0 then pinf else if b < 0 then ninf else nan
  | ninf, fin b => if b > 0 then ninf else if b < 0 then pinf else nan
  | pinf, pinf => pinf
  | pinf, ninf => ninf
  | ninf, pinf => ninf
  | ninf, ninf => pinf
  | _, _ => nan

end FVal

namespace TrainRim

/-- Embedding of `args.patience`: an integer, or `np.inf` (the default). -/
inductive Patience where
  | inf
  | val (n : Int)
deriving DecidableEq, Repr

/-- Embedding of `patience -= 1`. -/
def Patience.dec : Patience → Patience
  | Patience.inf => Patience.inf
  | Patience.val n => Patience.val (n - 1)

/-- Embedding of `patience == 0`. -/
def Patience.isZero : Patience → Bool
  | Patience.inf => false
  | Patience.val n => decide (n = 0)

/-- The configuration the epoch loop reads. -/
structure LoopCtx where
  epochs : Nat
  tolerance : ℚ
  checkpoints : Nat
  save_checkpoint : Bool
  patience0 : Patience

/-- The mutable state threaded through epochs; `saved` records the epochs
at which `checkpoint_manager.save()` ran. -/
structure LoopState where
  best_loss : FVal
  patience : Patience
  out_of_time : Bool
  saved : List Nat
deriving DecidableEq, Repr

/-- The epoch-end tail of the loop body, past the NaN abort (train_rim.py
lines 472-496): best-loss/patience update, out-of-time flag, checkpoint
branch, then the patience, out-of-time and learning-rate breaks.  Returns
the updated state and whether the loop continues to the next epoch. -/
def epochStep (ctx : LoopCtx) (cost : Nat → FVal) (oot lrBreak : Nat → Bool)
    (epoch : Nat) (s : LoopState) : LoopState × Bool :=
  let c := cost epoch
  let bp :=
    if FVal.flt c (FVal.fmul (FVal.fin (1 - ctx.tolerance)) s.best_loss)
    then (c, ctx.patience0)
    else (s.best_loss, s.patience.dec)
  let o := s.out_of_time || oot epoch
  let saved :=
    if ctx.save_checkpoint &&
       (decide (epoch % ctx.checkpoints = 0) || bp.2.isZero ||
        decide (epoch = ctx.epochs - 1) || o)
    then s.saved ++ [epoch] else s.saved
  (⟨bp.1, bp.2, o, saved⟩, !(bp.2.isZero || o || lrBreak epoch))

/-- One pass over the remaining epochs of the `for epoch in range(...)`
loop, from `epoch` with `fuel` iterations left.  `cost` is the tracked
train/val metric at each epoch's end, `preBreak` the wall-clock test at
the epoch's start, `oot` whether `max_time` is exceeded at that epoch's
end, `lrBreak` the learning-rate floor test.  The order of the epoch-end
checks is the source's: the `np.isnan` abort happens before the
checkpoint branch (`epochStep`). -/
def epochsFrom (ctx : LoopCtx) (cost : Nat → FVal)
    (preBreak oot lrBreak : Nat → Bool) :
    Nat → Nat → LoopState → LoopState
  | _, 0, s => s
  | epoch, fuel + 1, s =>
    if preBreak epoch then s
    else if (cost epoch).isnan then s
    else if (epochStep ctx cost oot lrBreak epoch s).2 then
      epochsFrom ctx cost preBreak oot lrBreak (epoch + 1) fuel
        (epochStep ctx cost oot lrBreak epoch s).1
    else (epochStep ctx cost oot lrBreak epoch s).1

/-- The epochs at which a checkpoint is saved over a whole run:
`best_loss = np.inf`, `patience = args.patience`, `out_of_time = False`
at entry. -/
def trainLoopSaved (ctx : LoopCtx) (cost : Nat → FVal)
    (preBreak oot lrBreak : Nat → Bool) : List Nat :=
  (epochsFrom ctx cost preBreak oot lrBreak 0 ctx.epochs
    ⟨FVal.pinf, ctx.patience0, false, []⟩).saved

end TrainRim

/-! ## Theorems -/

/-- Both block variants' `call`, evaluated past the channel split: holds
whenever the channel count is even (`tf.split` succeeds). -/
lemma convGRUBlock_call_eq {α : Type} (blk : ConvGRUBlock α)
    (inputs state : Tensor α) (hmod : state.channels.length % 2 = 0) :
    blk.call inputs state =
      some ((blk.gru2 (blk.conv1 (blk.gru1 inputs ⟨state.height, state.width,
            state.channels.take (state.channels.length / 2)⟩).1)
          ⟨state.height, state.width,
            state.channels.drop (state.channels.length / 2)⟩).1,
        tfConcat
          (blk.gru1 inputs ⟨state.height, state.width,
            state.channels.take (state.channels.length / 2)⟩).1
          (blk.gru2 (blk.conv1 (blk.gru1 inputs ⟨state.height, state.width,
              state.channels.take (state.channels.length / 2)⟩).1)
            ⟨state.height, state.width,
              state.channels.drop (state.channels.length / 2)⟩).1) := by
  simp [ConvGRUBlock.call, tfSplit2, hmod]

/-- Same computation for the plus variant. -/
lemma convGRUPlusBlock_call_eq {α : Type} (blk : ConvGRUPlusBlock α)
    (inputs state : Tensor α) (hmod : state.channels.length % 2 = 0) :
    blk.call inputs state =
      some ((blk.gru2 (blk.conv1 (blk.gru1 inputs ⟨state.height, state.width,
            state.channels.take (state.channels.length / 2)⟩).1)
          ⟨state.height, state.width,
            state.channels.drop (state.channels.length / 2)⟩).1,
        tfConcat
          (blk.gru1 inputs ⟨state.height, state.width,
            state.channels.take (state.channels.length / 2)⟩).1
          (blk.gru2 (blk.conv1 (blk.gru1 inputs ⟨state.height, state.width,
              state.channels.take (state.channels.length / 2)⟩).1)
            ⟨state.height, state.width,
              state.channels.drop (state.channels.length / 2)⟩).1) := by
  simp [ConvGRUPlusBlock.call, tfSplit2, hmod]

/-- C1: for a state of channel width `2F`, the block's `call` splits the
state into the two channel halves `ht_11`, `ht_12`, computes
`gru_1_out = gru1(inputs, ht_11)`, transforms it through the intermediate
convolution into `gru_1_outE`, computes `gru_2_out = gru2(gru_1_outE,
ht_12)`, and returns output `gru_2_out` with new state
`concat [gru_1_out, gru_2_out]` along the channel axis; the intermediate
convolution is configured tanh-activated, same-padded, with stride
`(1, 1)`.  Stated for both variants. -/
theorem claim_C1_recurrent_block_call {α : Type} (filters : Nat)
    (kernel_size : KSize) (conv1 : Tensor α → Tensor α)
    (gru1 gru2 : Tensor α → Tensor α → Tensor α × Tensor α)
    (inputs state : Tensor α) (F : Nat)
    (hF : state.channels.length = 2 * F) :
    ((ConvGRUBlock.init filters kernel_size conv1 gru1 gru2).call inputs state =
      some ((gru2 (conv1 (gru1 inputs
            ⟨state.height, state.width, state.channels.take F⟩).1)
          ⟨state.height, state.width, state.channels.drop F⟩).1,
        tfConcat
          (gru1 inputs ⟨state.height, state.width, state.channels.take F⟩).1
          (gru2 (conv1 (gru1 inputs
              ⟨state.height, state.width, state.channels.take F⟩).1)
            ⟨state.height, state.width, state.channels.drop F⟩).1)) ∧
    ((ConvGRUPlusBlock.init filters kernel_size conv1 gru1 gru2).call inputs state =
      some ((gru2 (conv1 (gru1 inputs
            ⟨state.height, state.width, state.channels.take F⟩).1)
          ⟨state.height, state.width, state.channels.drop F⟩).1,
        tfConcat
          (gru1 inputs ⟨state.height, state.width, state.channels.take F⟩).1
          (gru2 (conv1 (gru1 inputs
              ⟨state.height, state.width, state.channels.take F⟩).1)
            ⟨state.height, state.width, state.channels.drop F⟩).1)) ∧
    (ConvGRUBlock.init filters kernel_size conv1 gru1 gru2).conv1_config.activation
      = ConvActivation.tanh ∧
    (ConvGRUBlock.init filters kernel_size conv1 gru1 gru2).conv1_config.padding
      = ConvPadding.same ∧
    (ConvGRUBlock.init filters kernel_size conv1 gru1 gru2).conv1_config.strides
      = KSize.pair 1 1 ∧
    (ConvGRUPlusBlock.init filters kernel_size conv1 gru1 gru2).conv1_config.activation
      = ConvActivation.tanh ∧
    (ConvGRUPlusBlock.init filters kernel_size conv1 gru1 gru2).conv1_config.padding
      = ConvPadding.same ∧
    (ConvGRUPlusBlock.init filters kernel_size conv1 gru1 gru2).conv1_config.strides
      = KSize.pair 1 1 := by
  have hmod : state.channels.length % 2 = 0 := by omega
  have hdiv : state.channels.length / 2 = F := by omega
  refine ⟨?_, ?_, rfl, rfl, rfl, rfl, rfl, rfl⟩
  · have h := convGRUBlock_call_eq
      (ConvGRUBlock.init filters kernel_size conv1 gru1 gru2) inputs state hmod
    rw [hdiv] at h
    exact h
  · have h := convGRUPlusBlock_call_eq
      (ConvGRUPlusBlock.init filters kernel_size conv1 gru1 gru2) inputs state hmod
    rw [hdiv] at h
    exact h

/-- Concrete inputs for the witnesses: a one-channel input grid, a
two-channel state, a shape-respecting abstract cell and the identity as
abstract convolution. -/
def wInputs : Tensor Bool := ⟨1, 1, [true]⟩

/-- A `2 * 1`-channel hidden state. -/
def wState : Tensor Bool := ⟨1, 1, [true, false]⟩

/-- An abstract GRU cell returning its prior state (shape-preserving). -/
def wGru : Tensor Bool → Tensor Bool → Tensor Bool × Tensor Bool :=
  fun x h => (h, x)

/-- An abstract intermediate convolution. -/
def wConv : Tensor Bool → Tensor Bool := fun x => x

/-- Witness for C1 at `F = 1`. -/
theorem claim_C1_witness :
    wState.channels.length = 2 * 1 ∧
    (ConvGRUBlock.init 4 (KSize.int 5) wConv wGru wGru).call wInputs wState =
      some (⟨1, 1, [false]⟩, ⟨1, 1, [true, false]⟩) :=
  ⟨by decide, by
    have h := claim_C1_recurrent_block_call 4 (KSize.int 5) wConv wGru wGru
      wInputs wState 1 (by decide)
    exact h.1.trans (by decide)⟩

/-- C3: for every `F > 0` and a state of channel width exactly `2F`, the
split yields two slabs of exactly `F` channels; provided the internal
cells preserve the shape of their prior-state argument (the GRU-2D
contract: same-padded convolutions keep state shape constant, hence an
`F`-channel state comes back from an `F`-channel slab), the returned
hidden state has exactly `2F` channels and the state's spatial
dimensions are unchanged.  Stated for both variants. -/
theorem claim_C3_channel_invariant {α : Type} (filters : Nat)
    (kernel_size : KSize) (conv1 : Tensor α → Tensor α)
    (gru1 gru2 : Tensor α → Tensor α → Tensor α × Tensor α)
    (inputs state : Tensor α) (F : Nat) (hF : 0 < F)
    (hlen : state.channels.length = 2 * F)
    (hg1 : ∀ x h, (gru1 x h).1.height = h.height ∧
      (gru1 x h).1.width = h.width ∧
      (gru1 x h).1.channels.length = h.channels.length)
    (hg2 : ∀ x h, (gru2 x h).1.height = h.height ∧
      (gru2 x h).1.width = h.width ∧
      (gru2 x h).1.channels.length = h.channels.length) :
    ((state.channels.take (state.channels.length / 2)).length = F ∧
     (state.channels.drop (state.channels.length / 2)).length = F) ∧
    (∃ xt ht,
      (ConvGRUBlock.init filters kernel_size conv1 gru1 gru2).call inputs state
        = some (xt, ht) ∧
      ht.channels.length = 2 * F ∧
      ht.height = state.height ∧ ht.width = state.width) ∧
    (∃ xt ht,
      (ConvGRUPlusBlock.init filters kernel_size conv1 gru1 gru2).call inputs state
        = some (xt, ht) ∧
      ht.channels.length = 2 * F ∧
      ht.height = state.height ∧ ht.width = state.width) := by
  have hmod : state.channels.length % 2 = 0 := by omega
  have hdiv : state.channels.length / 2 = F := by omega
  refine ⟨⟨?_, ?_⟩, ?_, ?_⟩
  · rw [List.length_take, hdiv, hlen]; omega
  · rw [List.length_drop, hdiv, hlen]; omega
  · refine ⟨_, _, convGRUBlock_call_eq _ inputs state hmod, ?_, ?_, ?_⟩
    · show (tfConcat _ _).channels.length = 2 * F
      simp only [ConvGRUBlock.init]
      rw [tfConcat, List.length_append,
        (hg1 inputs _).2.2, (hg2 _ _).2.2]
      simp only [List.length_take, List.length_drop, hdiv, hlen]
      omega
    · exact (hg1 inputs _).1
    · exact (hg1 inputs _).2.1
  · refine ⟨_, _, convGRUPlusBlock_call_eq _ inputs state hmod, ?_, ?_, ?_⟩
    · show (tfConcat _ _).channels.length = 2 * F
      simp only [ConvGRUPlusBlock.init]
      rw [tfConcat, List.length_append,
        (hg1 inputs _).2.2, (hg2 _ _).2.2]
      simp only [List.length_take, List.length_drop, hdiv, hlen]
      omega
    · exact (hg1 inputs _).1
    · exact (hg1 inputs _).2.1

/-- Witness for C3 at `F = 1` with the shape-preserving cell `wGru`. -/
theorem claim_C3_witness :
    (0 < 1 ∧ wState.channels.length = 2 * 1) ∧
    (wState.channels.take (wState.channels.length / 2)).length = 1 :=
  ⟨⟨by decide, by decide⟩,
    ((claim_C3_channel_invariant 4 (KSize.int 5) wConv wGru wGru wInputs wState 1
      (by decide) (by decide)
      (fun x h => ⟨rfl, rfl, rfl⟩)
      (fun x h => ⟨rfl, rfl, rfl⟩)).1).1⟩

/-- C7: the two block variants implement identical wiring: with the same
internal cell functions and intermediate convolution, `call` returns the
same (output, new state) pair on every input and state, and the
constructors configure the intermediate convolution identically. -/
theorem claim_C7_variants_identical_wiring {α : Type} (filters : Nat)
    (kernel_size : KSize) (conv1 : Tensor α → Tensor α)
    (gru1 gru2 : Tensor α → Tensor α → Tensor α × Tensor α) :
    (∀ inputs state : Tensor α,
      (ConvGRUBlock.init filters kernel_size conv1 gru1 gru2).call inputs state =
      (ConvGRUPlusBlock.init filters kernel_size conv1 gru1 gru2).call inputs state) ∧
    (ConvGRUBlock.init filters kernel_size conv1 gru1 gru2).conv1_config =
      (ConvGRUPlusBlock.init filters kernel_size conv1 gru1 gru2).conv1_config :=
  ⟨fun _ _ => rfl, rfl⟩

/-- The per-layer convolution loop, rewritten step by step into the
spec-side composition: the optionality of normalization and dropout is a
case split on the construction flags. -/
lemma convStack_eq_foldl {T : Type} (convFn bnFn : Nat → T → Bool → T)
    (act : T → T) (dropFn : T → Bool → T) (batch_norm : Bool)
    (dropout_rate : Option ℚ) (tr : Bool) :
    ∀ (is : List Nat) (x : T),
      ConvEncodingLayer.convStack act
        (match dropout_rate with
          | none => fun x _ => x
          | some _ => dropFn) tr
        (is.map (fun i => (convFn i,
          if batch_norm then bnFn i else fun x _ => x))) x
      = is.foldl
          (fun acc i => specLayerStep (convFn i) (bnFn i) act dropFn
            batch_norm dropout_rate.isSome tr acc) x := by
  intro is
  induction is with
  | nil => intro x; rfl
  | cons i rest ih =>
    intro x
    rw [List.map_cons, ConvEncodingLayer.convStack, List.foldl_cons]
    have hstep :
        (match dropout_rate with
          | none => fun x _ => x
          | some _ => dropFn)
          (act ((if batch_norm then bnFn i else fun x _ => x)
            (convFn i x tr) tr)) tr
        = specLayerStep (convFn i) (bnFn i) act dropFn batch_norm
            dropout_rate.isSome tr x := by
      cases batch_norm <;> cases dropout_rate <;> simp [specLayerStep]
    rw [hstep]
    exact ih _

/-- C6: the call of a constructed `ConvEncodingLayer` applies, for each of
the `N` convolution layers in order, the convolution, then normalization
(identity when `batch_norm` is off), then the activation, then dropout
(identity when `dropout_rate` is unset), and finally the downsampling
stage, which applies its strided convolution, then its own optional
normalization, then the same activation — i.e. it equals the composition
the spec describes (`specEncodingForward`). -/
theorem claim_C6_encoding_layer_order {T : Type} (kernel_size : KSize)
    (dks dfs : Option Nat) (filters N : Nat) (act : T → T)
    (batch_norm : Bool) (dropout_rate : Option ℚ) (strides : KSize)
    (convFn bnFn : Nat → T → Bool → T) (dsConv dsBn dropFn : T → Bool → T)
    (x : T) (training : Bool) :
    (ConvEncodingLayer.init kernel_size dks dfs filters N act batch_norm
        dropout_rate strides convFn bnFn dsConv dsBn dropFn).call x training
      = specEncodingForward convFn bnFn dsConv dsBn act dropFn N batch_norm
          dropout_rate.isSome training x := by
  show DownsamplingLayer.call _ _ _ = _
  unfold DownsamplingLayer.call specEncodingForward ConvEncodingLayer.init
    DownsamplingLayer.init
  simp only [List.zip_map']
  rw [convStack_eq_foldl convFn bnFn act dropFn batch_norm dropout_rate training]
  cases batch_norm <;> simp

/-- The skip-connection loop computes the same features as the plain
loop (the activation is a stateless pointwise map). -/
lemma convStackSkip_eq_convStack {T : Type} (act : T → T)
    (drop : T → Bool → T) (tr : Bool) :
    ∀ (ps : List ((T → Bool → T) × (T → Bool → T))) (x : T),
      ConvEncodingLayer.convStackSkip act drop tr ps x
        = ConvEncodingLayer.convStack act drop tr ps x := by
  intro ps
  induction ps with
  | nil => intro x; rfl
  | cons p rest ih =>
    intro x
    rw [ConvEncodingLayer.convStackSkip, ConvEncodingLayer.convStack]
    exact ih _

/-- C8: `call_with_skip_connection` returns a pair whose second component
is the downsampling stage applied to the first, and equals what `call`
returns on the same input with the same training flag. -/
theorem claim_C8_skip_variant_refines_call {T : Type}
    (l : ConvEncodingLayer T) (x : T) (training : Bool) :
    (l.call_with_skip_connection x training).2 =
      l.downsampling_layer.call (l.call_with_skip_connection x training).1
        training ∧
    (l.call_with_skip_connection x training).2 = l.call x training := by
  refine ⟨rfl, ?_⟩
  show l.downsampling_layer.call _ _ = l.downsampling_layer.call _ _
  rw [convStackSkip_eq_convStack]

/-- C10: in `ConvEncodingLayer` construction, when
`downsampling_kernel_size` is `None` the downsampling convolution's
kernel size is the layer's `kernel_size` argument unchanged, and when it
is the int `v` it is the pair `(v, v)`; when `downsampling_filters` is
`None` the downsampling convolution's filter count is the layer's
`filters`, and otherwise it is `downsampling_filters`.  Stated both for
the stored attributes and for the configuration handed to the
downsampling `Conv2D`. -/
theorem claim_C10_downsampling_defaults {T : Type} (kernel_size : KSize)
    (v w : Nat) (dks dfs : Option Nat) (filters N : Nat) (act : T → T)
    (batch_norm : Bool) (dropout_rate : Option ℚ) (strides : KSize)
    (convFn bnFn : Nat → T → Bool → T) (dsConv dsBn dropFn : T → Bool → T) :
    ((ConvEncodingLayer.init kernel_size none dfs filters N act batch_norm
        dropout_rate strides convFn bnFn dsConv dsBn
        dropFn).downsampling_layer.conv_config.kernel_size = kernel_size) ∧
    ((ConvEncodingLayer.init kernel_size (some v) dfs filters N act batch_norm
        dropout_rate strides convFn bnFn dsConv dsBn
        dropFn).downsampling_layer.conv_config.kernel_size = KSize.pair v v) ∧
    ((ConvEncodingLayer.init kernel_size dks none filters N act batch_norm
        dropout_rate strides convFn bnFn dsConv dsBn
        dropFn).downsampling_layer.conv_config.filters = filters) ∧
    ((ConvEncodingLayer.init kernel_size dks (some w) filters N act batch_norm
        dropout_rate strides convFn bnFn dsConv dsBn
        dropFn).downsampling_layer.conv_config.filters = w) ∧
    ((ConvEncodingLayer.init kernel_size none dfs filters N act batch_norm
        dropout_rate strides convFn bnFn dsConv dsBn
        dropFn).downsampling_kernel_size = kernel_size) ∧
    ((ConvEncodingLayer.init kernel_size (some v) dfs filters N act batch_norm
        dropout_rate strides convFn bnFn dsConv dsBn
        dropFn).downsampling_kernel_size = KSize.pair v v) ∧
    ((ConvEncodingLayer.init kernel_size dks none filters N act batch_norm
        dropout_rate strides convFn bnFn dsConv dsBn
        dropFn).downsampling_filters = filters) ∧
    ((ConvEncodingLayer.init kernel_size dks (some w) filters N act batch_norm
        dropout_rate strides convFn bnFn dsConv dsBn
        dropFn).downsampling_filters = w) :=
  ⟨rfl, rfl, rfl, rfl, rfl, rfl, rfl, rfl⟩

namespace TrainRim

/-- C2: the scalar loss `train_step` computes — per-pixel-weighted squared
link-space residuals summed over pixels, weighted by `wt` and summed over
steps, fields summed, batch summed, divided by `args.batch_size` — equals
the doubly-weighted sum the spec declares, for every step-weight vector
`wt` (hence for each recognized time-weighting scheme), every residual
weighting map (hence for each recognized per-pixel scheme), every
inverse link, every trace and every batch size. -/
theorem claim_C2_train_step_loss {T B Hs Ws Cs Hk Wk Ck : Nat}
    (batch_size : ℚ)
    (ws : BTensor B Hs Ws Cs → BTensor B Hs Ws Cs)
    (wk : BTensor B Hk Wk Ck → BTensor B Hk Wk Ck)
    (source_inverse_link : BTensor B Hs Ws Cs → BTensor B Hs Ws Cs)
    (kappa_inverse_link : BTensor B Hk Wk Ck → BTensor B Hk Wk Ck)
    (source_series : Fin T → BTensor B Hs Ws Cs)
    (kappa_series : Fin T → BTensor B Hk Wk Ck)
    (source : BTensor B Hs Ws Cs) (kappa : BTensor B Hk Wk Ck)
    (wt : Fin T → ℚ) :
    train_step_cost batch_size ws wk source_inverse_link kappa_inverse_link
        source_series kappa_series source kappa wt =
      spec_doubly_weighted_loss batch_size ws wk source_inverse_link
        kappa_inverse_link source_series kappa_series source kappa wt := by
  simp only [train_step_cost, spec_doubly_weighted_loss, cost1]
  rw [Finset.sum_add_distrib]
  ring

/-- The selector `select_time_weights` succeeds exactly on the three recognized
names. -/
lemma select_time_weights_recognized (tn : String) (steps : Nat) :
    (select_time_weights tn steps).isOk = true ↔
      tn = "uniform" ∨ tn = "linear" ∨ tn = "quadratic" := by
  unfold select_time_weights
  split_ifs with h1 h2 h3 <;> simp_all [Except.isOk, Except.toBool]

/-- The selector `select_kappa_residual_weights` succeeds exactly on the four
recognized names. -/
lemma select_kappa_residual_weights_recognized (kn : String) :
    (select_kappa_residual_weights kn).isOk = true ↔
      kn = "uniform" ∨ kn = "linear" ∨ kn = "quadratic" ∨ kn = "sqrt" := by
  unfold select_kappa_residual_weights
  split_ifs with h1 h2 h3 h4 <;> simp_all [Except.isOk, Except.toBool]

/-- The selector `select_source_residual_weights` succeeds exactly on the four
recognized names. -/
lemma select_source_residual_weights_recognized (sn : String) :
    (select_source_residual_weights sn).isOk = true ↔
      sn = "uniform" ∨ sn = "linear" ∨ sn = "quadratic" ∨ sn = "sqrt" := by
  unfold select_source_residual_weights
  split_ifs with h1 h2 h3 h4 <;> simp_all [Except.isOk, Except.toBool]

/-- The setup prologue succeeds exactly when all three selections do. -/
lemma setupWeights_isOk (tn kn sn : String) (steps : Nat) :
    (setupWeights tn kn sn steps).isOk =
      ((select_time_weights tn steps).isOk &&
       ((select_kappa_residual_weights kn).isOk &&
        (select_source_residual_weights sn).isOk)) := by
  unfold setupWeights
  cases select_time_weights tn steps <;>
    cases select_kappa_residual_weights kn <;>
    cases select_source_residual_weights sn <;> rfl

/-- C5: each weighting-scheme selection raises a `ValueError` exactly on
unrecognized names, and the whole setup prologue — run before any
training step executes — succeeds exactly when the time-weighting name
is one of `uniform`/`linear`/`quadratic` and both per-pixel
residual-weighting names are one of `uniform`/`linear`/`quadratic`/
`sqrt`. -/
theorem claim_C5_weight_scheme_validation (tn kn sn : String) (steps : Nat) :
    ((select_time_weights tn steps).isOk = true ↔
      tn = "uniform" ∨ tn = "linear" ∨ tn = "quadratic") ∧
    ((select_kappa_residual_weights kn).isOk = true ↔
      kn = "uniform" ∨ kn = "linear" ∨ kn = "quadratic" ∨ kn = "sqrt") ∧
    ((select_source_residual_weights sn).isOk = true ↔
      sn = "uniform" ∨ sn = "linear" ∨ sn = "quadratic" ∨ sn = "sqrt") ∧
    ((setupWeights tn kn sn steps).isOk = true ↔
      ((tn = "uniform" ∨ tn = "linear" ∨ tn = "quadratic") ∧
       (kn = "uniform" ∨ kn = "linear" ∨ kn = "quadratic" ∨ kn = "sqrt") ∧
       (sn = "uniform" ∨ sn = "linear" ∨ sn = "quadratic" ∨ sn = "sqrt"))) := by
  refine ⟨select_time_weights_recognized tn steps,
    select_kappa_residual_weights_recognized kn,
    select_source_residual_weights_recognized sn, ?_⟩
  rw [setupWeights_isOk, Bool.and_eq_true, Bool.and_eq_true,
    select_time_weights_recognized, select_kappa_residual_weights_recognized,
    select_source_residual_weights_recognized]

/-- Gauss sum over `List.range`, in `ℚ`. -/
lemma sum_map_range_add_one (n : Nat) :
    ((List.range n).map (fun (t : Nat) => ((t : ℚ) + 1))).sum =
      (n : ℚ) * ((n : ℚ) + 1) / 2 := by
  induction n with
  | zero => simp
  | succ m ih =>
    rw [List.range_succ, List.map_append, List.sum_append, ih]
    push_cast
    simp
    ring

/-- Sum of squares over `List.range`, in `ℚ`. -/
lemma sum_map_range_sq (n : Nat) :
    ((List.range n).map (fun (t : Nat) => ((t : ℚ) + 1) ^ 2)).sum =
      (n : ℚ) * ((n : ℚ) + 1) * (2 * (n : ℚ) + 1) / 6 := by
  induction n with
  | zero => simp
  | succ m ih =>
    rw [List.range_succ, List.map_append, List.sum_append, ih]
    push_cast
    simp
    ring

/-- A sum of pointwise quotients by a fixed denominator. -/
lemma sum_map_div_const {α : Type} (k : List α) (f : α → ℚ) (c : ℚ) :
    (k.map (fun x => f x / c)).sum = (k.map f).sum / c := by
  induction k with
  | nil => simp
  | cons a t ih => simp [ih, add_div]

/-- C9: every recognized per-step time-weighting scheme produces weights
summing exactly to 1 for every `T ≥ 1` (`uniform`: `1/T` each; `linear`:
`2t/(T(T+1))`; `quadratic`: `6t²/(T(T+1)(2T+1))`, `t = 1..T`), and every
recognized per-pixel residual-weighting scheme produces weights summing
exactly to 1 on every sample whose denominator is nonzero (`sqrt` for
every interpretation `sqrtFn` of `tf.sqrt`). -/
theorem claim_C9_weights_sum_to_one (T : Nat) (hT : 1 ≤ T) (sqrtFn : ℚ → ℚ)
    (k : List ℚ) (hk : k ≠ [])
    (h1 : k.sum ≠ 0)
    (h2 : (k.map (fun y => y ^ 2)).sum ≠ 0)
    (h3 : (k.map sqrtFn).sum ≠ 0) :
    (uniform_time_weights T).sum = 1 ∧
    (linear_time_weights T).sum = 1 ∧
    (quadratic_time_weights T).sum = 1 ∧
    (PixelScheme.apply sqrtFn PixelScheme.uniform k).sum = 1 ∧
    (PixelScheme.apply sqrtFn PixelScheme.linear k).sum = 1 ∧
    (PixelScheme.apply sqrtFn PixelScheme.quadratic k).sum = 1 ∧
    (PixelScheme.apply sqrtFn PixelScheme.sq_root k).sum = 1 := by
  have hTQ : (T : ℚ) ≠ 0 := Nat.cast_ne_zero.mpr (by omega)
  have hT1 : (T : ℚ) + 1 ≠ 0 := by positivity
  have h2T : 2 * (T : ℚ) + 1 ≠ 0 := by positivity
  have hkl : (k.length : ℚ) ≠ 0 :=
    Nat.cast_ne_zero.mpr (fun h => hk (List.length_eq_zero.mp h))
  refine ⟨?_, ?_, ?_, ?_, ?_, ?_, ?_⟩
  · rw [uniform_time_weights, List.sum_replicate, nsmul_eq_mul]
    field_simp
  · rw [linear_time_weights,
      sum_map_div_const (List.range T)
        (fun (t : Nat) => 2 * ((t : ℚ) + 1) / (T : ℚ)) ((T : ℚ) + 1),
      sum_map_div_const (List.range T)
        (fun (t : Nat) => 2 * ((t : ℚ) + 1)) (T : ℚ),
      List.sum_map_mul_left, sum_map_range_add_one]
    field_simp
  · rw [quadratic_time_weights,
      sum_map_div_const (List.range T)
        (fun (t : Nat) => 6 * ((t : ℚ) + 1) ^ 2 / (T : ℚ) / ((T : ℚ) + 1))
        (2 * (T : ℚ) + 1),
      sum_map_div_const (List.range T)
        (fun (t : Nat) => 6 * ((t : ℚ) + 1) ^ 2 / (T : ℚ)) ((T : ℚ) + 1),
      sum_map_div_const (List.range T)
        (fun (t : Nat) => 6 * ((t : ℚ) + 1) ^ 2) (T : ℚ),
      List.sum_map_mul_left, sum_map_range_sq]
    field_simp
  · show (k.map (fun _ => 1 / (k.length : ℚ))).sum = 1
    rw [List.map_const', List.sum_replicate, nsmul_eq_mul]
    field_simp
  · show (k.map (fun x => x / k.sum)).sum = 1
    rw [sum_map_div_const k (fun x => x) k.sum, List.map_id']
    exact div_self h1
  · show (k.map (fun x => x ^ 2 / (k.map (fun y => y ^ 2)).sum)).sum = 1
    rw [sum_map_div_const k (fun x => x ^ 2) ((k.map (fun y => y ^ 2)).sum)]
    exact div_self h2
  · show (k.map (fun x => sqrtFn x / (k.map sqrtFn).sum)).sum = 1
    rw [sum_map_div_const k sqrtFn ((k.map sqrtFn).sum)]
    exact div_self h3

/-- Witness for C9 at `T = 2`, sample `[1, 4]`, `sqrtFn` the identity. -/
theorem claim_C9_witness :
    (1 ≤ 2 ∧ ([1, 4] : List ℚ) ≠ [] ∧ ([1, 4] : List ℚ).sum ≠ 0 ∧
      (([1, 4] : List ℚ).map (fun y => y ^ 2)).sum ≠ 0 ∧
      (([1, 4] : List ℚ).map (fun x => x)).sum ≠ 0) ∧
    ((uniform_time_weights 2).sum = 1 ∧
     (linear_time_weights 2).sum = 1 ∧
     (quadratic_time_weights 2).sum = 1 ∧
     (PixelScheme.apply (fun x => x) PixelScheme.uniform [1, 4]).sum = 1 ∧
     (PixelScheme.apply (fun x => x) PixelScheme.linear [1, 4]).sum = 1 ∧
     (PixelScheme.apply (fun x => x) PixelScheme.quadratic [1, 4]).sum = 1 ∧
     (PixelScheme.apply (fun x => x) PixelScheme.sq_root [1, 4]).sum = 1) :=
  ⟨⟨by norm_num, by decide, by norm_num, by norm_num, by norm_num⟩,
    claim_C9_weights_sum_to_one 2 (by norm_num) (fun x => x) [1, 4]
      (by decide) (by norm_num) (by norm_num) (by norm_num)⟩

/-- A checkpoint saved by `epochStep` is either inherited from the prior
state or saved at the current epoch. -/
lemma epochStep_saved (ctx : LoopCtx) (cost : Nat → FVal)
    (oot lr : Nat → Bool) (epoch : Nat) (s : LoopState) :
    ∀ y ∈ ((epochStep ctx cost oot lr epoch s).1).saved,
      y ∈ s.saved ∨ y = epoch := by
  intro y hy
  unfold epochStep at hy
  simp only at hy
  split_ifs at hy <;>
    first
      | exact Or.inl hy
      | exact (List.mem_append.mp hy).elim Or.inl
          (fun h' => Or.inr (List.mem_singleton.mp h'))

/-- If the tracked cost is NaN at epoch `e`, every epoch the loop saves a
checkpoint at — beyond those already recorded — is strictly before `e`:
the loop can never run the checkpoint branch at `e` or later. -/
lemma epochsFrom_saved_lt (ctx : LoopCtx) (cost : Nat → FVal)
    (pre oot lr : Nat → Bool) (e : Nat) (hnan : (cost e).isnan = true) :
    ∀ (fuel epoch : Nat) (s : LoopState), epoch ≤ e →
      (∀ x ∈ s.saved, x < e) →
      ∀ x ∈ (epochsFrom ctx cost pre oot lr epoch fuel s).saved, x < e := by
  intro fuel
  induction fuel with
  | zero => intro epoch s _ hs x hx; exact hs x hx
  | succ n ih =>
    intro epoch s hle hs x hx
    rw [epochsFrom] at hx
    by_cases hp : pre epoch = true
    · rw [if_pos hp] at hx; exact hs x hx
    · rw [if_neg hp] at hx
      by_cases hc : (cost epoch).isnan = true
      · rw [if_pos hc] at hx; exact hs x hx
      · rw [if_neg hc] at hx
        have hlt : epoch < e :=
          lt_of_le_of_ne hle (fun h => hc (h ▸ hnan))
        have hs' : ∀ y ∈ ((epochStep ctx cost oot lr epoch s).1).saved,
            y < e := by
          intro y hy
          rcases epochStep_saved ctx cost oot lr epoch s y hy with h | h
          · exact hs y h
          · exact h ▸ hlt
        by_cases hr : (epochStep ctx cost oot lr epoch s).2 = true
        · rw [if_pos hr] at hx
          exact ih (epoch + 1) _ hlt hs' x hx
        · rw [if_neg hr] at hx
          exact hs' x hx

/-- C4 (amended): if the tracked scalar cost is NaN at the end of epoch
`e`, the loop breaks before the epoch-end checkpoint branch, so every
checkpoint saved in the run belongs to an epoch strictly before `e` —
none is saved at `e` or at any subsequent epoch. -/
theorem claim_C4_nan_abort (ctx : LoopCtx) (cost : Nat → FVal)
    (pre oot lr : Nat → Bool) (e x : Nat)
    (hnan : (cost e).isnan = true)
    (hx : x ∈ trainLoopSaved ctx cost pre oot lr) : x < e :=
  epochsFrom_saved_lt ctx cost pre oot lr e hnan ctx.epochs 0
    ⟨FVal.pinf, ctx.patience0, false, []⟩ (Nat.zero_le e)
    (by intro y hy; cases hy) x hx

/-- A run whose cost is finite at epoch 0 (where a checkpoint is saved)
and NaN at epoch 1. -/
def cexCostA : Nat → FVal := fun n => if n = 0 then FVal.fin 1 else FVal.nan

/-- Loop configuration saving a checkpoint every epoch. -/
def cexCtx : LoopCtx := ⟨3, 0, 1, true, Patience.inf⟩

/-- Witness for the amended C4: the checkpoint at epoch 0 of `cexCostA`'s
run is strictly before the NaN at epoch 1. -/
theorem claim_C4_witness :
    (cexCostA 1).isnan = true ∧
    0 ∈ trainLoopSaved cexCtx cexCostA (fun _ => false) (fun _ => false)
      (fun _ => false) ∧
    (0 : Nat) < 1 :=
  ⟨by decide,
    by simp [trainLoopSaved, epochsFrom, epochStep, cexCtx, cexCostA,
      FVal.isnan, FVal.flt, FVal.fmul, Patience.isZero, Patience.dec],
    claim_C4_nan_abort cexCtx cexCostA (fun _ => false) (fun _ => false)
      (fun _ => false) 1 0 (by decide)
      (by simp [trainLoopSaved, epochsFrom, epochStep, cexCtx, cexCostA,
        FVal.isnan, FVal.flt, FVal.fmul, Patience.isZero, Patience.dec])⟩

/-- A run whose tracked cost is `+inf` — non-finite but not NaN — at every
epoch. -/
def cexCostInf : Nat → FVal := fun _ => FVal.pinf

/-- Counterexample to C4 as stated: with the cost `+inf` (non-finite) at
the end of epoch 0, `np.isnan` is false, the loop does not abort, the
checkpoint branch runs and a checkpoint is saved at that very epoch. -/
theorem claim_C4_counterexample :
    (cexCostInf 0).isFinite = false ∧
    0 ∈ trainLoopSaved cexCtx cexCostInf (fun _ => false) (fun _ => false)
      (fun _ => false) :=
  ⟨rfl,
    by simp [trainLoopSaved, epochsFrom, epochStep, cexCtx, cexCostInf,
      FVal.isnan, FVal.flt, FVal.fmul, Patience.isZero, Patience.dec]⟩

end TrainRim

end Censai
